import Mathlib

/-!
Verification of the rule-retrieval and task-generation engine
(vectorStore.ts, ragAgent.ts, reminderService.ts).

Shallow embedding conventions used throughout this file:

* Times are rational numbers of milliseconds (the exact idealisation of the
  float millisecond arithmetic performed on JavaScript Date values).  A
  value of type Clock carries the current instant together with the start
  of the current local day, which models Date.setHours on a uniform
  24-hour day.
* The TF-style embedding of vectorStore.generateEmbedding adds the same
  constant 1/sqrt(tokenCount) to one bucket per token and then divides by
  the Euclidean norm.  The resulting unit vector is therefore determined
  by the integer vector of bucket counts: entry i equals
  count_i / sqrt(sum of squared counts).  We represent a fingerprint by
  its count vector (a list of 100 naturals); the all-zero fingerprint
  corresponds to the all-zero count vector.
* Cosine similarity of two such fingerprints is
  dot(c, d) / sqrt(sqNorm(c) * sqNorm(d)), a non-negative real.  We
  represent it exactly by its square, the non-negative fraction with
  numerator dot(c, d)^2 and denominator sqNorm(c) * sqNorm(d), kept as a
  pair of naturals (the denominator is positive whenever the value is
  defined).  Squaring is monotone on non-negatives, so every order
  comparison on these fractions (by cross multiplication) agrees with
  the comparison the source performs on the float similarities.  When a
  fingerprint is all-zero the source computes 0/0, which is NaN in
  JavaScript; we represent that undefined outcome by Option.none.
* Generated ids (crypto.randomUUID) are modelled by an injectable id
  supply, as the design notes of the specification prescribe: task ids
  come from a caller-supplied function on naturals, reminder ids from a
  counter in the scheduler state.
* The notification sink, browser Notification objects and DOM events are
  external collaborators; the message delivered to them is the message
  field stored on a reminder.
-/

/-! ## Character and substring utilities (JavaScript string semantics) -/

/-- ASCII lower-casing of one character, as String.toLowerCase acts on the
ASCII range.  Tokens consist of word characters only, so this is the only
range that matters for hashing. -/
def lowerChar (c : Char) : Char :=
  if 'A' ≤ c ∧ c ≤ 'Z' then Char.ofNat (c.toNat + 32) else c

/-- JavaScript word character class (the complement of the regex class
used by the split in generateEmbedding). -/
def isWordChar (c : Char) : Bool :=
  decide ('a' ≤ c ∧ c ≤ 'z') || decide ('A' ≤ c ∧ c ≤ 'Z') ||
  decide ('0' ≤ c ∧ c ≤ '9') || decide (c = '_')

/-- Lower-cased character list of a string; all case-insensitive regex
tests below operate on this. -/
def lowerL (s : String) : List Char := s.data.map lowerChar

/-- Splits a character list into maximal runs of word characters, the
effect of splitting on one or more non-word characters. -/
def tokensAux : List Char → List Char → List (List Char)
  | [], acc => if acc.isEmpty then [] else [acc.reverse]
  | c :: cs, acc =>
    if isWordChar c then tokensAux cs (c :: acc)
    else if acc.isEmpty then tokensAux cs [] else acc.reverse :: tokensAux cs []

/-- Tokenisation performed by generateEmbedding: lower-case, split on
non-word characters, keep tokens of length greater than 2. -/
def tokenize (s : String) : List (List Char) :=
  (tokensAux (s.data.map lowerChar) []).filter (fun t => 2 < t.length)

/-- Is the first list a prefix of the second (decidable, Bool-valued). -/
def isPre : List Char → List Char → Bool
  | [], _ => true
  | _ :: _, [] => false
  | a :: as, b :: bs => a = b && isPre as bs

/-- Does the pattern occur as a contiguous substring. -/
def hasSub : List Char → List Char → Bool
  | pat, [] => isPre pat []
  | pat, c :: rest => isPre pat (c :: rest) || hasSub pat rest

/-- Case-insensitive substring test, the meaning of a /literal/i regex
test in the source. -/
def containsCI (s pat : String) : Bool := hasSub (lowerL pat) (lowerL s)

/-- Case-insensitive test for an alternation of literal branches. -/
def containsAnyCI (s : String) (pats : List String) : Bool :=
  pats.any (fun p => containsCI s p)

/-- ASCII decimal digit test. -/
def isDigit (c : Char) : Bool := decide ('0' ≤ c ∧ c ≤ '9')

/-- Skips regex whitespace.  The ASCII whitespace characters are the only
ones appearing in the inputs this development evaluates. -/
def wsSkip (l : List Char) : List Char :=
  l.dropWhile (fun c => c = ' ' || c = '\t' || c = '\n' || c = '\r')

/-- Existence of a match of one-or-more digits followed by the literal,
with full backtracking over the digit-run length. -/
def digitsThenLit (lit : List Char) : List Char → Bool
  | [] => false
  | c :: rest => isDigit c && (isPre lit rest || digitsThenLit lit rest)

/-- Existence of a match of one-or-more digits followed by a position
satisfying the continuation, with full backtracking. -/
def digitsThenP (k : List Char → Bool) : List Char → Bool
  | [] => false
  | c :: rest => isDigit c && (k rest || digitsThenP k rest)

/-- Scans every position for the literal followed by a suffix satisfying
the continuation: the existence semantics of an unanchored regex search. -/
def scanFor (lit : List Char) (k : List Char → Bool) : List Char → Bool
  | [] => isPre lit [] && k []
  | c :: rest =>
    (isPre lit (c :: rest) && k ((c :: rest).drop lit.length)) || scanFor lit k rest

/-- Existence of a digits-colon-digits match (regex d+:d+): equivalent to
one digit, a colon and one digit in a row. -/
def hasDigitColonDigit : List Char → Bool
  | a :: b :: c :: rest =>
    (isDigit a && b = ':' && isDigit c) || hasDigitColonDigit (b :: c :: rest)
  | _ => false

/-- Existence of a digit, optional whitespace, then am or pm (on the
lower-cased list). -/
def hasDigitAmPm : List Char → Bool
  | [] => false
  | c :: rest =>
    (isDigit c && (isPre (("am").data) (wsSkip rest) || isPre (("pm").data) (wsSkip rest)))
      || hasDigitAmPm rest

/-! ## VectorStore (vectorStore.ts) -/

/-- A rule record.  The embedding field holds the count-vector
representation of the fingerprint once the rule has been indexed. -/
structure Rule where
  id : String
  content : String
  source : String := ""
  priority : Nat := 5
  category : Option String := none
  embedding : Option (List Nat) := none
deriving DecidableEq, Repr

/-- generateEmbedding, in the count-vector representation described in
the header: bucket i receives the number of tokens hashing to i.  The
source accumulates 1/sqrt(n) per token and L2-normalises, producing
count_i / sqrt(sum of squared counts); for an empty token list the norm
is zero and the guarded normalisation leaves the all-zero vector, which
here is the all-zero count vector. -/
def toInt32 (n : Int) : Int := (n + 2 ^ 31) % 2 ^ 32 - 2 ^ 31

/-- simpleHash: h := (h << 5) - h + code, coerced to a signed 32-bit
integer at every step, which is 31 * h + code modulo 2^32 shifted into
the signed range. -/
def jsHash (t : List Char) : Int :=
  t.foldl (fun h c => toInt32 (31 * h + c.toNat)) 0

/-- The bucket of a token: absolute value of the hash, modulo 100. -/
def bucketOf (t : List Char) : Nat := (jsHash t).natAbs % 100

def generateEmbedding (s : String) : List Nat :=
  (List.range 100).map (fun i => ((tokenize s).map bucketOf).count i)

/-- Squared Euclidean norm of a count vector; zero exactly for the
all-zero fingerprint. -/
def sqNormV (v : List Nat) : Nat := (v.map (fun x => x * x)).sum

/-- Dot product of two count vectors. -/
def dotV (a b : List Nat) : Nat := (List.zipWith (fun x y => x * y) a b).sum

/-- cosineSimilarity, in the exact squared representation.  The source
returns dot / (sqrt(normA) * sqrt(normB)) with no zero guard; when either
vector is all-zero both dot and the denominator are zero and JavaScript
produces NaN, represented here by none.  Otherwise the value is the
non-negative real whose square is the fraction numerator / denominator
returned (denominator positive). -/
def cosineSimilarity (a b : List Nat) : Option (Nat × Nat) :=
  if sqNormV a = 0 ∨ sqNormV b = 0 then none
  else some ((dotV a b) ^ 2, sqNormV a * sqNormV b)

/-- The store state: the rules array.  The embeddings map of the source
is written but never read by the operations under verification and is
not modelled. -/
structure VectorStore where
  rules : List Rule := []
deriving DecidableEq, Repr

/-- addRules: computes and attaches each fingerprint, then appends the
rule to the array, unconditionally. -/
def addRules (st : VectorStore) (rs : List Rule) : VectorStore :=
  { rules := st.rules ++ rs.map (fun r => { r with embedding := some (generateEmbedding r.content) }) }

def getAllRules (st : VectorStore) : List Rule := st.rules

/-- A scored search candidate.  idx is ghost information recording the
insertion position of the rule, used only to state the stable-tie
property of the sort; it is not part of the value the source returns. -/
structure Scored where
  idx : Nat
  rule : Rule
  simSq : Option (Nat × Nat)
deriving DecidableEq, Repr

/-- The scoring loop of searchSimilar: every rule carrying an embedding
is paired with its similarity to the query. -/
def scoreRules (st : VectorStore) (query : String) : List Scored :=
  let qe := generateEmbedding query
  st.rules.enum.filterMap
    (fun p => p.2.embedding.map (fun e => Scored.mk p.1 p.2 (cosineSimilarity qe e)))

/-- Comparison of two defined squared similarities by cross
multiplication: with positive denominators, n1 / d1 is at most n2 / d2
exactly when n1 * d2 is at most n2 * d1. -/
def simLe (s t : Nat × Nat) : Bool := decide (s.1 * t.2 ≤ t.1 * s.2)

/-- The sort comparator (a, b) => b.similarity - a.similarity: the
earlier element a stays before b exactly when the comparator value is at
most 0.  A comparison involving NaN yields NaN, which the sort coerces to
+0, that is, to keep the original order. -/
def keepBefore (a b : Scored) : Bool :=
  match a.simSq, b.simSq with
  | some x, some y => simLe y x
  | _, _ => true

/-- Stable insertion of an earlier element into an already sorted list of
later elements: the element moves past exactly those strictly below it. -/
def insertScored (a : Scored) : List Scored → List Scored
  | [] => [a]
  | b :: l => if keepBefore a b then a :: b :: l else b :: insertScored a l

/-- The stable descending sort the ECMAScript specification prescribes
for a consistent comparator. -/
def sortScored : List Scored → List Scored
  | [] => []
  | a :: l => insertScored a (sortScored l)

/-- searchSimilar: score all indexed rules, sort by descending
similarity, keep the first limit entries.  The source default for limit
is 5. -/
def searchSimilar (st : VectorStore) (query : String) (limit : Nat) :
    List (Rule × Option (Nat × Nat)) :=
  ((sortScored (scoreRules st query)).take limit).map (fun s => (s.rule, s.simSq))

/-! ## ReminderService (reminderService.ts) -/

inductive TaskPriority
  | high
  | medium
  | low
deriving DecidableEq, Repr

inductive TaskStatus
  | pending
  | inProgress
  | completed
deriving DecidableEq, Repr

inductive ReminderType
  | deadline
  | preparation
  | followup
deriving DecidableEq, Repr

/-- A task record (source name Task, which collides with a core Lean
name).  Times are rational milliseconds; ids come from the injectable id
supply. -/
structure TaskItem where
  id : Nat
  content : String
  priority : TaskPriority
  status : TaskStatus
  dueDate : Option ℚ
  reminderTime : Option ℚ := none
  appliedRules : List String := []
  createdAt : ℚ
  updatedAt : ℚ
deriving DecidableEq, Repr

structure Reminder where
  id : Nat
  taskId : Nat
  message : String
  scheduledTime : ℚ
  priority : TaskPriority
  sent : Bool
  type : ReminderType
deriving DecidableEq, Repr

/-- The current instant and the start (local midnight) of the current
day, both in milliseconds; models Date.setHours on a uniform 24-hour
day. -/
structure Clock where
  now : ℚ
  dayStart : ℚ
deriving DecidableEq, Repr

/-- Scheduler state: the reminders array, the pending-timer table keyed
by reminder id, and the counter supplying fresh reminder ids (the model
of crypto.randomUUID). -/
structure ReminderState where
  reminders : List Reminder := []
  activeTimers : List Nat := []
  nextId : Nat := 0
deriving DecidableEq, Repr

def priorityEmoji : TaskPriority → String
  | TaskPriority.high => "🚨"
  | TaskPriority.medium => "⚠️"
  | TaskPriority.low => "ℹ️"

/-- generateReminderMessage.  The source builds the three templates and
returns typeMessages.preparation || typeMessages.followup ||
typeMessages.deadline; the JavaScript or-chain picks the first non-empty
string and never consults the type parameter. -/
def generateReminderMessage (task : TaskItem) (ty : ReminderType) : String :=
  let pe := priorityEmoji task.priority
  let deadlineMsg := pe ++ " Task deadline approaching: " ++ task.content
  let preparationMsg := pe ++ " Time to prepare for: " ++ task.content
  let followupMsg := pe ++ " Follow up needed on: " ++ task.content
  if preparationMsg ≠ "" then preparationMsg
  else if followupMsg ≠ "" then followupMsg
  else deadlineMsg

/-- sendReminder: delivers the message to the notification sink, marks
the reminder sent and removes its timer handle.  The reminders array is
not touched. -/
def sendReminder (st : ReminderState) (rid : Nat) : ReminderState :=
  { st with
    reminders := st.reminders.map
      (fun r => if r.id = rid then { r with sent := true } else r),
    activeTimers := st.activeTimers.filter (fun i => !(i == rid)) }

/-- scheduleNotification: arms a timer when the scheduled time is in the
future, fires immediately when it is at most five minutes past, and
silently drops a staler request. -/
def scheduleNotification (st : ReminderState) (clock : Clock) (r : Reminder) :
    ReminderState :=
  let delay := r.scheduledTime - clock.now
  if 0 < delay then { st with activeTimers := st.activeTimers ++ [r.id] }
  else if -300000 < delay then sendReminder st r.id
  else st

/-- scheduleReminder: builds the reminder (fresh id from the counter),
appends it and wires the timer. -/
def scheduleReminder (st : ReminderState) (clock : Clock) (task : TaskItem)
    (reminderTime : ℚ) (ty : ReminderType) : ReminderState :=
  let r : Reminder :=
    { id := st.nextId, taskId := task.id,
      message := generateReminderMessage task ty,
      scheduledTime := reminderTime, priority := task.priority,
      sent := false, type := ty }
  let st1 := { st with reminders := st.reminders ++ [r], nextId := st.nextId + 1 }
  scheduleNotification st1 clock r

def getAllReminders (st : ReminderState) : List Reminder := st.reminders

/-- The offset subtracted from the due date, by effective priority; the
float factors 0.25 and 0.5 are exact. -/
def reminderOffset (timeToDue : ℚ) (effectivePriority : TaskPriority) : ℚ :=
  match effectivePriority with
  | TaskPriority.high =>
    if timeToDue ≤ 7200000 then max (timeToDue * (1 / 4)) 900000
    else if timeToDue ≤ 28800000 then 3600000
    else 7200000
  | TaskPriority.medium =>
    if timeToDue ≤ 14400000 then max (timeToDue * (1 / 4)) 3600000
    else 14400000
  | TaskPriority.low =>
    if timeToDue ≤ 86400000 then max (timeToDue * (1 / 2)) 14400000
    else 86400000

/-- A task due within 24 hours is treated as high priority for reminder
purposes regardless of its stated priority. -/
def effectivePriorityOf (timeToDue : ℚ) (priority : TaskPriority) : TaskPriority :=
  if timeToDue ≤ 86400000 then TaskPriority.high else priority

/-- Due date minus offset, before the clamp. -/
def rawReminderTime (now : ℚ) (dueDate : Option ℚ) (priority : TaskPriority) : ℚ :=
  let due := dueDate.getD (now + 86400000)
  due - reminderOffset (due - now) (effectivePriorityOf (due - now) priority)

/-- calculateReminderTime: a pure function of the current instant, the
optional due date (defaulted to one day out) and the stated priority;
results at or before now are clamped to five minutes from now. -/
def calculateReminderTime (now : ℚ) (dueDate : Option ℚ)
    (priority : TaskPriority) : ℚ :=
  if now < rawReminderTime now dueDate priority then rawReminderTime now dueDate priority
  else now + 300000

/-! ## RAGAgent (ragAgent.ts) -/

/-- The per-input value object.  The source stores a float confidence;
the model keeps the exact squared similarities of the retrieved results
(sims) and interprets the confidence number through calculateConfidence
below, so that the undefined (NaN) outcome stays observable. -/
structure RAGResponse where
  response : String
  relevantRules : List Rule
  sims : List (Option (Nat × Nat))
deriving DecidableEq, Repr

/-- Array.prototype.join with a separator. -/
def joinSep (sep : String) : List String → String
  | [] => ""
  | [s] => s
  | s :: rest => s ++ sep ++ joinSep sep rest

/-- Input mentions a clock time or today/tomorrow/yesterday, and some
retrieved rule mentions conflict vocabulary. -/
def containsTimeConflict (input : String) (rules : List Rule) : Bool :=
  (hasDigitColonDigit (lowerL input) || hasDigitAmPm (lowerL input) ||
    containsAnyCI input [("tomorrow"), ("today"), ("yesterday")]) &&
  rules.any (fun r => containsAnyCI r.content [("conflict"), ("overlap"), ("same time"), ("schedule")])

/-- Input mentions urgency vocabulary and some retrieved rule mentions
priority vocabulary. -/
def containsPriorityConflict (input : String) (rules : List Rule) : Bool :=
  containsAnyCI input [("urgent"), ("important"), ("priority"), ("deadline")] &&
  rules.any (fun r => containsAnyCI r.content [("priority"), ("urgent"), ("important"), ("skip"), ("cancel")])

def handleTimeConflict (input : String) (rules : List Rule) : String :=
  let conflictRules := rules.filter
    (fun r => containsAnyCI r.content [("conflict"), ("overlap"), ("schedule"), ("time")])
  "Based on your rules: " ++ joinSep ("; ") (conflictRules.map (fun r => r.content)) ++
    ". \n    I recommend checking for schedule conflicts and rescheduling if necessary."

/-- Reduce over the filtered rules picking the numerically highest
priority; the source reduce starts from the first element and is only
reached when the filter is non-empty. -/
def handlePriorityConflict (input : String) (rules : List Rule) : String :=
  let priorityRules := rules.filter
    (fun r => containsAnyCI r.content [("priority"), ("urgent"), ("important"), ("skip"), ("cancel")])
  let highest := match priorityRules with
    | [] => { id := "", content := "" : Rule }
    | h :: t => t.foldl (fun (best cur : Rule) => if best.priority < cur.priority then cur else best) h
  "According to your highest priority rule: \"" ++ highest.content ++
    "\". \n    This should take precedence over other activities."

def generateBasicResponse (input : String) (rules : List Rule) : String :=
  let mostRelevantRule := rules.headD { id := "", content := "" : Rule }
  "Based on the rule: \"" ++ mostRelevantRule.content ++
    "\", here\x27s what I recommend: \n    Follow this guideline for your situation."

/-- The classification chain, first match wins. -/
def generateResponse (input : String) (rules : List Rule) : String :=
  if containsTimeConflict input rules then handleTimeConflict input rules
  else if containsPriorityConflict input rules then handlePriorityConflict input rules
  else generateBasicResponse input rules

def noRulesMessage : String :=
  "I don\x27t have any relevant rules for this input. Please add rules that cover this scenario."

/-- processUserInput: retrieve the top 3 rules; empty retrieval yields
the fixed fallback (whose confidence field is the literal 0, which
calculateConfidence below also returns on the empty list). -/
def processUserInput (store : VectorStore) (input : String) : RAGResponse :=
  let results := searchSimilar store input 3
  if results.isEmpty then
    { response := noRulesMessage, relevantRules := [], sims := [] }
  else
    { response := generateResponse input (results.map (fun p => p.1)),
      relevantRules := results.map (fun p => p.1),
      sims := results.map (fun p => p.2) }

/-- calculateConfidence: Math.min(avgSimilarity * 100, 100), returning 0
on an empty result list.  Each stored value is the square of the actual
similarity, so the real similarity is its square root; a NaN similarity
(none) makes the average and the minimum NaN, represented by none. -/
noncomputable def calculateConfidence (sims : List (Option (Nat × Nat))) : Option ℝ :=
  if sims.length = 0 then some 0
  else if none ∈ sims then none
  else some (min
    ((((sims.filterMap id).map (fun p => Real.sqrt ((p.1 : ℝ) / (p.2 : ℝ)))).sum
      / (sims.length : ℝ)) * 100) 100)

/-- The confidence number carried by a response. -/
noncomputable def confidenceOf (resp : RAGResponse) : Option ℝ :=
  calculateConfidence resp.sims

/-! ### Due-date extraction and urgency tests -/

/-- Numeric value and remainder of a maximal digit run. -/
def digitsVal : List Char → Nat → Nat × List Char
  | [], acc => (acc, [])
  | c :: rest, acc =>
    if isDigit c then digitsVal rest (acc * 10 + (c.toNat - 48)) else (acc, c :: rest)

/-- The am/pm adjustment of the captured hours. -/
def amPmAdjust (h : Nat) (isPm : Bool) : Nat :=
  if isPm then (if h ≠ 12 then h + 12 else h) else (if h = 12 then 0 else h)

/-- Optional whitespace then am or pm, yielding adjusted hours and
minutes. -/
def finishAmPm (h m : Nat) (r : List Char) : Option (Nat × Nat) :=
  let r2 := wsSkip r
  if isPre (("am").data) r2 then some (amPmAdjust h false, m)
  else if isPre (("pm").data) r2 then some (amPmAdjust h true, m)
  else none

/-- The optional greedy colon-minutes group, with regex backtracking:
try the group first, fall back to skipping it. -/
def parseAfterColon (h : Nat) (r : List Char) : Option (Nat × Nat) :=
  (match r with
   | ':' :: m1 :: m2 :: r2 =>
     if isDigit m1 && isDigit m2 then
       finishAmPm h ((m1.toNat - 48) * 10 + (m2.toNat - 48)) r2
     else none
   | _ => none).orElse (fun _ => finishAmPm h 0 r)

/-- The greedy one-or-two digit hours group, with backtracking from two
digits to one. -/
def parseHoursAt (r : List Char) : Option (Nat × Nat) :=
  match r with
  | [] => none
  | d1 :: r1 =>
    if isDigit d1 then
      match r1 with
      | d2 :: r2 =>
        if isDigit d2 then
          (parseAfterColon ((d1.toNat - 48) * 10 + (d2.toNat - 48)) r2).orElse
            (fun _ => parseAfterColon (d1.toNat - 48) r1)
        else parseAfterColon (d1.toNat - 48) r1
      | [] => parseAfterColon (d1.toNat - 48) []
    else none

/-- One keyword alternative of the clock-time pattern. -/
def parseTimeKw (kw : List Char) (l : List Char) : Option (Nat × Nat) :=
  if isPre kw l then parseHoursAt (wsSkip (l.drop kw.length)) else none

/-- The alternation at|by|before at one position, in source order. -/
def parseTimeAt (l : List Char) : Option (Nat × Nat) :=
  ((parseTimeKw (("at").data) l).orElse (fun _ => parseTimeKw (("by").data) l)).orElse
    (fun _ => parseTimeKw (("before").data) l)

/-- Leftmost match of the clock-time pattern over the lower-cased input,
yielding 24-hour hours and minutes. -/
def findTimeMatch : List Char → Option (Nat × Nat)
  | [] => none
  | c :: rest => (parseTimeAt (c :: rest)).orElse (fun _ => findTimeMatch rest)

/-- One position of the in-N-hours pattern (regex in, optional
whitespace, captured digits, optional whitespace, hour). -/
def parseInHoursAt (l : List Char) : Option Nat :=
  if isPre (("in").data) l then
    match wsSkip (l.drop 2) with
    | c :: rest =>
      if isDigit c then
        let p := digitsVal (c :: rest) 0
        if isPre (("hour").data) (wsSkip p.2) then some p.1 else none
      else none
    | [] => none
  else none

/-- Leftmost match of the in-N-hours pattern. -/
def findInHours : List Char → Option Nat
  | [] => none
  | c :: rest => (parseInHoursAt (c :: rest)).orElse (fun _ => findInHours rest)

/-- extractDueDate: today-family phrasing maps to 18:00 of the current
day, tomorrow-family to one day out, an explicit clock time to that time
today rolled to tomorrow when already past, and in-N-hours to N hours
out; otherwise no date is found. -/
def extractDueDate (clock : Clock) (input : String) : Option ℚ :=
  if containsAnyCI input [("today"), ("tonight"), ("this evening")] then
    some (clock.dayStart + 64800000)
  else if containsAnyCI input [("tomorrow"), ("next day")] then
    some (clock.now + 86400000)
  else
    match findTimeMatch (lowerL input) with
    | some hm =>
      let target := clock.dayStart + (hm.1 : ℚ) * 3600000 + (hm.2 : ℚ) * 60000
      some (if target ≤ clock.now then target + 86400000 else target)
    | none =>
      match findInHours (lowerL input) with
      | some n => some (clock.now + (n : ℚ) * 3600000)
      | none => none

/-- The literal in-N-hours pattern of isUrgentTimeframe (with literal
spaces, unlike the extraction pattern). -/
def inNHoursLit (l : List Char) : Bool :=
  scanFor (("in ").data) (digitsThenLit ((" hour").data)) l

def byClockTest (l : List Char) : Bool :=
  scanFor (("by ").data)
    (digitsThenP (fun r =>
      match r with
      | ':' :: r2 => digitsThenP (fun _ => true) r2
      | _ => false)) l

def beforeNumTest (l : List Char) : Bool :=
  scanFor (("before ").data) (digitsThenP (fun _ => true)) l

/-- isUrgentTimeframe: some of the eight urgency patterns matches. -/
def isUrgentTimeframe (input : String) : Bool :=
  let l := lowerL input
  containsAnyCI input [("today"), ("tonight"), ("this evening")] ||
  inNHoursLit l ||
  scanFor (("within").data) (fun r => hasSub (("hour").data) r) l ||
  byClockTest l ||
  beforeNumTest l ||
  containsAnyCI input [("urgent"), ("asap"), ("immediately"), ("critical")] ||
  scanFor (("due").data) (fun r => hasSub (("today").data) r) l ||
  scanFor (("deadline").data) (fun r => hasSub (("today").data) r) l

/-- calculateDefaultPriority: high when the due date is within one day or
the input carries urgency vocabulary, medium for scheduling vocabulary,
low otherwise. -/
def calculateDefaultPriority (input : String) (dueDate : Option ℚ) (clock : Clock) :
    TaskPriority :=
  if (match dueDate with
      | some d => decide (d - clock.now ≤ 86400000)
      | none => false) then
    TaskPriority.high
  else if containsAnyCI input [("urgent"), ("critical"), ("important"), ("asap"), ("emergency")] then
    TaskPriority.high
  else if containsAnyCI input [("meeting"), ("appointment"), ("deadline"), ("client")] then
    TaskPriority.medium
  else
    TaskPriority.low

/-! ### Action-item extraction and task generation -/

/-- A drafted action item.  Every drafting branch of the source supplies
a due date, so the optional field is always populated at creation; it is
kept optional because the source type declares it optional and the
override at the due-soon step tests it. -/
structure ActionItem where
  content : String
  priority : TaskPriority
  dueDate : Option ℚ
deriving DecidableEq, Repr

/-- extractActionItems: draft one item per action verb found in the
response, then apply the urgency-vocabulary override, then the due-soon
override, and synthesize a single default item when nothing was
drafted. -/
def extractActionItems (response input : String) (clock : Clock) : List ActionItem :=
  let isUrgentTime := isUrgentTimeframe input
  let suggested := extractDueDate clock input
  let base : List ActionItem :=
    (if containsAnyCI response [("reschedule"), ("change time")] then
      [{ content := "Reschedule conflicting appointment",
         priority := if isUrgentTime then TaskPriority.high else TaskPriority.medium,
         dueDate := some (suggested.getD (clock.now + 7200000)) }]
     else []) ++
    (if containsAnyCI response [("cancel"), ("skip")] then
      [{ content := "Cancel lower priority activity",
         priority := if isUrgentTime then TaskPriority.high else TaskPriority.medium,
         dueDate := some (suggested.getD (clock.now + 3600000)) }]
     else []) ++
    (if containsAnyCI response [("check"), ("verify")] then
      [{ content := "Verify schedule and requirements",
         priority := if isUrgentTime then TaskPriority.high else TaskPriority.medium,
         dueDate := some (suggested.getD (clock.now + 14400000)) }]
     else [])
  let afterUrgent :=
    if containsAnyCI input [("urgent"), ("emergency"), ("asap"), ("critical"), ("immediately")] then
      base.map (fun it =>
        { it with priority := TaskPriority.high, dueDate := some (clock.now + 1800000) })
    else base
  let afterDueSoon :=
    if isUrgentTime ||
       (containsAnyCI input [("today"), ("tonight"), ("this evening")] ||
        inNHoursLit (lowerL input) ||
        scanFor (("within").data) (fun r => hasSub (("hour").data) r) (lowerL input)) then
      afterUrgent.map (fun it =>
        { it with priority := TaskPriority.high,
                  dueDate := some (it.dueDate.getD (suggested.getD (clock.now + 28800000))) })
    else afterUrgent
  if afterDueSoon.isEmpty then
    [{ content := "Handle: " ++ input,
       priority := calculateDefaultPriority input suggested clock,
       dueDate := some (suggested.getD (clock.now + 86400000)) }]
  else afterDueSoon

/-- One iteration of the reminder-scheduling loop of
generateTaskRecommendations: a task with a due date gets its reminder
time recorded and a deadline reminder scheduled. -/
def scheduleStep (clock : Clock) (acc : List TaskItem × ReminderState) (t : TaskItem) :
    List TaskItem × ReminderState :=
  match t.dueDate with
  | some _ =>
    let rt := calculateReminderTime clock.now t.dueDate t.priority
    let t2 := { t with reminderTime := some rt }
    (acc.1 ++ [t2], scheduleReminder acc.2 clock t2 rt ReminderType.deadline)
  | none => (acc.1 ++ [t], acc.2)

/-- The task record generateTaskRecommendations builds from one indexed
action item: fresh id from the supply, pending status, the rule ids that
justified the response, creation stamps from the clock. -/
def buildTask (gen : Nat → Nat) (resp : RAGResponse) (clock : Clock)
    (p : Nat × ActionItem) : TaskItem :=
  { id := gen p.1, content := p.2.content, priority := p.2.priority,
    status := TaskStatus.pending, dueDate := p.2.dueDate,
    appliedRules := resp.relevantRules.map (fun r => r.id),
    createdAt := clock.now, updatedAt := clock.now }

/-- The task as recorded after scheduling: reminderTime set to the
computed reminder instant. -/
def withRT (clock : Clock) (t : TaskItem) : TaskItem :=
  { t with reminderTime := some (calculateReminderTime clock.now t.dueDate t.priority) }

/-- generateTaskRecommendations: process the input, extract action
items, build one pending task per item (ids from the injectable supply
gen), and schedule a reminder for every task carrying a due date. -/
def generateTaskRecommendations (gen : Nat → Nat) (store : VectorStore)
    (rst : ReminderState) (clock : Clock) (input : String) :
    List TaskItem × ReminderState :=
  let ragResponse := processUserInput store input
  let actionItems := extractActionItems ragResponse.response input clock
  let tasks := actionItems.enum.map (buildTask gen ragResponse clock)
  tasks.foldl (scheduleStep clock) ([], rst)

/-! ## Concrete fixtures used by witnesses and counterexamples -/

def ruleMeeting : Rule := { id := "r1", content := "meeting", source := "txt", priority := 5 }

def ruleEmptyContent : Rule := { id := "r0", content := "", source := "txt", priority := 5 }

def ruleCheckSched : Rule := { id := "r2", content := "check schedule", source := "txt", priority := 5 }

def ruleGym : Rule := { id := "r3", content := "gym", source := "txt", priority := 5 }

def storeMeeting : VectorStore := addRules { rules := [] } [ruleMeeting]

def storeWithEmpty : VectorStore := addRules { rules := [] } [ruleEmptyContent, ruleMeeting]

def storeCheck : VectorStore := addRules { rules := [] } [ruleCheckSched]

def storeTwo : VectorStore := addRules { rules := [] } [ruleMeeting, ruleGym]

def taskFixture : TaskItem :=
  { id := 7, content := "file taxes", priority := TaskPriority.high,
    status := TaskStatus.pending, dueDate := none, createdAt := 0, updatedAt := 0 }

def schedFixture : ReminderState :=
  scheduleReminder {} ⟨0, 0⟩ taskFixture 1000 ReminderType.deadline

/-- The literal reminder record the fixture produces. -/
def reminderFixture : Reminder :=
  { id := 0, taskId := 7, message := "🚨 Time to prepare for: file taxes",
    scheduledTime := 1000, priority := TaskPriority.high, sent := false,
    type := ReminderType.deadline }

/-- The strict ranking the search claim asserts of the output: strictly
greater similarity first, ties broken by insertion position.  Squared
similarities are compared as fractions by cross multiplication; their
denominators are positive whenever the similarity is defined. -/
def scoredRank (a b : Scored) : Prop :=
  ∃ x y, a.simSq = some x ∧ b.simSq = some y ∧
    (y.1 * x.2 < x.1 * y.2 ∨ (x.1 * y.2 = y.1 * x.2 ∧ a.idx < b.idx))

/-! ## Helper lemmas -/

/-- Mapping a sent-insensitive projection over the sent-marking pass of
sendReminder changes nothing. -/
theorem map_markSent {α : Type} (g : Reminder → α) (rid : Nat)
    (hg : ∀ r : Reminder, g { r with sent := true } = g r) (l : List Reminder) :
    (l.map (fun r => if r.id = rid then { r with sent := true } else r)).map g = l.map g := by
  induction l with
  | nil => rfl
  | cons r t ih =>
    simp only [List.map_cons, ih]
    by_cases h : r.id = rid
    · rw [if_pos h, hg r]
    · rw [if_neg h]

theorem sendReminder_messages (st : ReminderState) (rid : Nat) :
    (sendReminder st rid).reminders.map (fun r => r.message)
      = st.reminders.map (fun r => r.message) :=
  map_markSent (fun r => r.message) rid (fun _ => rfl) st.reminders

theorem sendReminder_ids (st : ReminderState) (rid : Nat) :
    (sendReminder st rid).reminders.map (fun r => r.id)
      = st.reminders.map (fun r => r.id) :=
  map_markSent (fun r => r.id) rid (fun _ => rfl) st.reminders

theorem sendReminder_taskIds (st : ReminderState) (rid : Nat) :
    (sendReminder st rid).reminders.map (fun r => r.taskId)
      = st.reminders.map (fun r => r.taskId) :=
  map_markSent (fun r => r.taskId) rid (fun _ => rfl) st.reminders

/-- The preparation template is never the empty string, so the or-chain
in generateReminderMessage always selects it, whatever the requested
type. -/
theorem generateReminderMessage_eq (task : TaskItem) (ty : ReminderType) :
    generateReminderMessage task ty
      = priorityEmoji task.priority ++ " Time to prepare for: " ++ task.content := by
  have h : priorityEmoji task.priority ++ " Time to prepare for: " ++ task.content ≠ "" := by
    intro h
    have hd := congrArg String.data h
    cases task.priority <;> simp [priorityEmoji, String.data_append] at hd
  simp [generateReminderMessage, h]

/-! ## Claim theorems -/

/-- C1 (code bug evaluation): for a rule or query whose content yields no
tokens of length greater than 2, the fingerprint is all-zero, and the
similarity the code computes against any other fingerprint is the
undefined 0/0 (NaN, modelled by none) — not the defined value 0 the
specification requires. -/
theorem cosineSimilarity_zero_fingerprint_nan :
    generateEmbedding "" = List.replicate 100 0 ∧
    cosineSimilarity (generateEmbedding "") (generateEmbedding "meeting") = none ∧
    cosineSimilarity (generateEmbedding "") (generateEmbedding "") = none ∧
    (cosineSimilarity (generateEmbedding "") (generateEmbedding "meeting")).isSome = false := by
  decide

/-- C2 (counterexample): with the due date ten hours out and stated
priority low, the code forces the effective priority to high (ten hours
is within the 24-hour window) and returns now + 8h, not the now + 5h the
claim states. -/
theorem calculateReminderTime_ten_hours_low_cex :
    calculateReminderTime 0 (some 36000000) TaskPriority.low = 28800000 ∧
    (28800000 : ℚ) ≠ 18000000 := by
  constructor
  · unfold calculateReminderTime rawReminderTime effectivePriorityOf reminderOffset
    norm_num
  · norm_num

/-- C2 (amended): for a task due ten hours from now with stated priority
low, the 24-hour due-soon check forces effective priority high, the
offset is two hours, and the reminder lands at now + 8h. -/
theorem calculateReminderTime_ten_hours_low (now : ℚ) :
    calculateReminderTime now (some (now + 36000000)) TaskPriority.low = now + 28800000 := by
  have h1 : rawReminderTime now (some (now + 36000000)) TaskPriority.low = now + 28800000 := by
    unfold rawReminderTime effectivePriorityOf
    have ht : now + 36000000 - now = 36000000 := by ring
    simp only [Option.getD, ht]
    norm_num [reminderOffset]
    ring
  unfold calculateReminderTime
  rw [h1]
  have h2 : now < now + 28800000 := by linarith
  simp [h2]

/-- The scheduler fixture evaluates to a literal state: one pending
deadline-type reminder, timer armed. -/
theorem schedFixture_eq :
    schedFixture = { reminders := [reminderFixture], activeTimers := [0], nextId := 1 } := by
  have h : (0 : ℚ) < 1000 - 0 := by norm_num
  simp only [schedFixture, scheduleReminder, scheduleNotification, h, if_true]
  decide

/-- C3 (counterexample): a reminder scheduled with the deadline type
carries the preparation phrasing, not the deadline phrasing. -/
theorem reminder_message_type_cex :
    (getAllReminders schedFixture).map (fun r => r.message)
      = ["🚨 Time to prepare for: file taxes"] ∧
    ("🚨 Time to prepare for: file taxes" : String)
      ≠ "🚨 Task deadline approaching: file taxes" := by
  rw [schedFixture_eq]
  constructor
  · decide
  · decide

/-- C3 (amended): every reminder scheduled by scheduleReminder, whatever
its type, carries a message made of the priority emoji of the task and
the preparation phrasing — the or-chain fallback of the source always
selects the preparation template. -/
theorem scheduleReminder_message_preparation (st : ReminderState) (clock : Clock)
    (task : TaskItem) (time : ℚ) (ty : ReminderType) :
    (getAllReminders (scheduleReminder st clock task time ty)).map (fun r => r.message)
      = (getAllReminders st).map (fun r => r.message)
        ++ [priorityEmoji task.priority ++ " Time to prepare for: " ++ task.content] := by
  unfold scheduleReminder scheduleNotification getAllReminders
  by_cases h1 : (0 : ℚ) < time - clock.now
  · simp [h1, generateReminderMessage_eq]
  · by_cases h2 : (-300000 : ℚ) < time - clock.now
    · simp [h1, h2, sendReminder_messages, generateReminderMessage_eq]
    · simp [h1, h2, generateReminderMessage_eq]

/-- C4 (counterexample): after a reminder fires via sendReminder it is
still present in getAllReminders, merely marked sent. -/
theorem sendReminder_fired_still_listed_cex :
    (getAllReminders (sendReminder schedFixture 0)).map (fun r => (r.id, r.sent))
      = [(0, true)] ∧
    getAllReminders (sendReminder schedFixture 0) ≠ [] := by
  rw [schedFixture_eq]
  constructor
  · decide
  · decide

/-- Every reminder whose id matches the fired one is marked sent after
the sent-marking pass. -/
theorem filter_markSent_all_sent (rid : Nat) (l : List Reminder) :
    ((l.map (fun r => if r.id = rid then { r with sent := true } else r)).filter
      (fun r => r.id == rid)).all (fun r => r.sent) = true := by
  induction l with
  | nil => rfl
  | cons r t ih =>
    simp only [List.map_cons, List.filter_cons]
    by_cases h : r.id = rid
    · rw [if_pos h]
      simp [h, ih]
    · rw [if_neg h]
      simp [h, ih]

/-- C4 (amended): sendReminder does not remove the fired reminder from
the reminder set: the ids listed by getAllReminders are unchanged, the
fired reminder is marked sent, and only its timer handle disappears. -/
theorem sendReminder_marks_sent_keeps (st : ReminderState) (rid : Nat) :
    (getAllReminders (sendReminder st rid)).map (fun r => r.id)
      = (getAllReminders st).map (fun r => r.id) ∧
    ((getAllReminders (sendReminder st rid)).filter (fun r => r.id == rid)).all
      (fun r => r.sent) = true ∧
    rid ∉ (sendReminder st rid).activeTimers := by
  refine ⟨sendReminder_ids st rid, filter_markSent_all_sent rid st.reminders, ?_⟩
  simp [sendReminder, List.mem_filter]

/-- C7 (counterexample): adding the same rule twice leaves two entries
with its id in getAllRules. -/
theorem addRules_duplicate_id_cex :
    ((getAllRules (addRules (addRules { rules := [] } [ruleMeeting]) [ruleMeeting])).filter
      (fun r => r.id == "r1")).length = 2 ∧ (2 : Nat) ≠ 1 := by
  constructor
  · decide
  · decide

/-- C7 (amended): addRules appends unconditionally, so re-adding a rule
grows the number of entries carrying its id by one instead of being
idempotent. -/
theorem addRules_same_id_appends (st : VectorStore) (r : Rule) :
    ((getAllRules (addRules st [r])).filter (fun x => x.id == r.id)).length
      = ((getAllRules st).filter (fun x => x.id == r.id)).length + 1 := by
  simp [addRules, getAllRules, List.filter_append]

/-- C9: calculateReminderTime always returns an instant strictly after
now, and whenever the raw reminder time (due date minus offset) falls at
or before now the result is exactly now + 5 minutes. -/
theorem calculateReminderTime_after_now (now : ℚ) (dueDate : Option ℚ)
    (p : TaskPriority) :
    now < calculateReminderTime now dueDate p ∧
    (rawReminderTime now dueDate p ≤ now →
      calculateReminderTime now dueDate p = now + 300000) := by
  unfold calculateReminderTime
  by_cases h : now < rawReminderTime now dueDate p
  · constructor
    · simp only [h, if_true]
    · intro hle
      exact absurd hle (not_le.mpr h)
  · constructor
    · simp only [h, if_false]
      linarith
    · intro _
      simp [h]

/-- C9 (witness): a task due in a tenth of a second with stated low
priority has its raw reminder time far in the past and gets clamped to
five minutes from now. -/
theorem calculateReminderTime_after_now_witness :
    rawReminderTime 0 (some 100) TaskPriority.low ≤ 0 ∧
    calculateReminderTime 0 (some 100) TaskPriority.low = 0 + 300000 :=
  ⟨by unfold rawReminderTime effectivePriorityOf reminderOffset; norm_num,
   (calculateReminderTime_after_now 0 (some 100) TaskPriority.low).2
     (by unfold rawReminderTime effectivePriorityOf reminderOffset; norm_num)⟩

/-- C5 (counterexample): a query whose fingerprint shares no bucket with
the single indexed rule retrieves that rule with similarity 0, so the
confidence is 0 while the retrieved rule list is non-empty — confidence
0 does not imply that no rules were retrieved. -/
theorem confidence_zero_with_rules_cex :
    (processUserInput storeMeeting "gym").relevantRules ≠ [] ∧
    confidenceOf (processUserInput storeMeeting "gym") = some 0 := by
  constructor
  · decide
  · have hs : (processUserInput storeMeeting "gym").sims = [some (0, 1)] := by decide
    unfold confidenceOf
    rw [hs]
    unfold calculateConfidence
    rw [if_neg (by simp), if_neg (by simp)]
    simp [List.filterMap_cons, Real.sqrt_zero]

/-- C5 (amended): the confidence of processUserInput is min(100, 100
times the mean retrieved similarity); it is 0 whenever no rules are
retrieved, and whenever every retrieved similarity is defined it is a
real number within [0, 100].  (It can also be 0 with a non-empty
retrieved set, and is NaN when a retrieved similarity is NaN.) -/
theorem processUserInput_confidence_props (store : VectorStore) (input : String) :
    ((processUserInput store input).relevantRules = [] →
      confidenceOf (processUserInput store input) = some 0) ∧
    (none ∉ (processUserInput store input).sims →
      ∃ c : ℝ, confidenceOf (processUserInput store input) = some c ∧
        0 ≤ c ∧ c ≤ 100) := by
  rcases h : searchSimilar store input 3 with _ | ⟨p, rest⟩
  · constructor
    · intro _
      simp [processUserInput, h, confidenceOf, calculateConfidence]
    · intro _
      refine ⟨0, ?_, le_refl 0, by norm_num⟩
      simp [processUserInput, h, confidenceOf, calculateConfidence]
  · constructor
    · intro hcon
      simp [processUserInput, h] at hcon
    · intro hnone
      simp only [processUserInput, h] at hnone ⊢
      simp only [List.isEmpty_cons, if_false, Bool.false_eq_true] at hnone ⊢
      unfold confidenceOf calculateConfidence
      simp only [List.length_map, List.length_cons]
      rw [if_neg (by simp), if_neg hnone]
      refine ⟨_, rfl, ?_, min_le_right _ _⟩
      refine le_min ?_ (by norm_num)
      have hs : (0 : ℝ) ≤
          ((((p :: rest).map (fun q => q.2)).filterMap id).map
            (fun q => Real.sqrt ((q.1 : ℝ) / (q.2 : ℝ)))).sum := by
        apply List.sum_nonneg
        intro x hx
        simp only [List.mem_map] at hx
        obtain ⟨a, -, rfl⟩ := hx
        exact Real.sqrt_nonneg _
      have hl : (0 : ℝ) < ((rest.length + 1 : Nat) : ℝ) := by positivity
      have := div_nonneg hs (le_of_lt hl)
      nlinarith

/-- C5 (witness): on an empty store the retrieved list is empty, the
hypotheses of the confidence theorem hold, and it yields confidence 0,
which indeed lies in [0, 100]. -/
theorem processUserInput_confidence_props_witness :
    ((processUserInput { rules := [] } "hello").relevantRules = []) ∧
    (confidenceOf (processUserInput { rules := [] } "hello") = some 0) ∧
    (none ∉ (processUserInput { rules := [] } "hello").sims) ∧
    (∃ c : ℝ, confidenceOf (processUserInput { rules := [] } "hello") = some c ∧
      0 ≤ c ∧ c ≤ 100) :=
  ⟨by decide,
   (processUserInput_confidence_props { rules := [] } "hello").1 (by decide),
   by decide,
   (processUserInput_confidence_props { rules := [] } "hello").2 (by decide)⟩

/-- Transitivity of the cross-multiplied fraction order through a middle
fraction with positive denominator. -/
theorem frac_le_trans {x y z : Nat × Nat} (hy : 0 < y.2)
    (h1 : y.1 * x.2 ≤ x.1 * y.2) (h2 : z.1 * y.2 ≤ y.1 * z.2) :
    z.1 * x.2 ≤ x.1 * z.2 := by
  have h3 : z.1 * x.2 * y.2 ≤ x.1 * z.2 * y.2 := by
    calc z.1 * x.2 * y.2 = (z.1 * y.2) * x.2 := by ring
    _ ≤ (y.1 * z.2) * x.2 := Nat.mul_le_mul_right _ h2
    _ = (y.1 * x.2) * z.2 := by ring
    _ ≤ (x.1 * y.2) * z.2 := Nat.mul_le_mul_right _ h1
    _ = x.1 * z.2 * y.2 := by ring
  exact Nat.le_of_mul_le_mul_right h3 hy

theorem mem_insertScored (a x : Scored) (l : List Scored) :
    x ∈ insertScored a l ↔ x = a ∨ x ∈ l := by
  induction l with
  | nil => simp [insertScored]
  | cons b t ih =>
    unfold insertScored
    by_cases h : keepBefore a b
    · rw [if_pos h]
      simp [List.mem_cons]
    · rw [if_neg h]
      simp only [List.mem_cons, ih]
      tauto

theorem mem_sortScored (x : Scored) (l : List Scored) :
    x ∈ sortScored l ↔ x ∈ l := by
  induction l with
  | nil => simp [sortScored]
  | cons a t ih =>
    unfold sortScored
    rw [mem_insertScored]
    simp [ih]

theorem enumFrom_fst_le {α : Type} (n : Nat) (l : List α) :
    ∀ p ∈ List.enumFrom n l, n ≤ p.1 := by
  induction l generalizing n with
  | nil => intro p hp; simp [List.enumFrom] at hp
  | cons a t ih =>
    intro p hp
    rcases List.mem_cons.mp hp with rfl | hp
    · exact le_refl n
    · exact le_trans (Nat.le_succ n) (ih (n + 1) p hp)

theorem pairwise_enumFrom {α : Type} (n : Nat) (l : List α) :
    (List.enumFrom n l).Pairwise (fun a b => a.1 < b.1) := by
  induction l generalizing n with
  | nil => simp [List.enumFrom]
  | cons a t ih =>
    refine List.Pairwise.cons ?_ (ih (n + 1))
    intro p hp
    exact lt_of_lt_of_le (Nat.lt_succ_self n) (enumFrom_fst_le (n + 1) t p hp)

theorem pairwise_filterMap_trans {α β : Type} (f : α → Option β)
    (R : α → α → Prop) (S : β → β → Prop)
    (h : ∀ a b x y, R a b → f a = some x → f b = some y → S x y)
    (l : List α) (hl : l.Pairwise R) : (l.filterMap f).Pairwise S := by
  induction l with
  | nil => simp
  | cons a t ih =>
    rw [List.pairwise_cons] at hl
    obtain ⟨hr, ht⟩ := hl
    rw [List.filterMap_cons]
    cases hfa : f a with
    | none => exact ih ht
    | some x =>
      refine List.Pairwise.cons ?_ (ih ht)
      intro y hy
      rw [List.mem_filterMap] at hy
      obtain ⟨b, hb, hfb⟩ := hy
      exact h a b x y (hr b hb) hfa hfb

/-- The scored candidates carry strictly increasing insertion indices. -/
theorem scoreRules_pairwise_idx (st : VectorStore) (q : String) :
    (scoreRules st q).Pairwise (fun a b => a.idx < b.idx) := by
  unfold scoreRules
  refine pairwise_filterMap_trans _ (fun a b => a.1 < b.1) _ ?_ _ ?_
  · intro a b x y hab hfa hfb
    cases ha : a.2.embedding <;> rw [ha] at hfa <;> simp at hfa
    cases hb : b.2.embedding <;> rw [hb] at hfb <;> simp at hfb
    rw [← hfa, ← hfb]
    exact hab
  · exact pairwise_enumFrom 0 st.rules

/-- Every defined squared similarity produced by the scoring loop has a
positive denominator. -/
theorem scoreRules_den_pos (st : VectorStore) (q : String) :
    ∀ s ∈ scoreRules st q, ∀ x, s.simSq = some x → 0 < x.2 := by
  intro s hs x hx
  unfold scoreRules at hs
  rw [List.mem_filterMap] at hs
  obtain ⟨p, hp, hf⟩ := hs
  cases he : p.2.embedding with
  | none =>
    rw [he] at hf
    simp at hf
  | some e =>
    rw [he] at hf
    simp at hf
    rw [← hf] at hx
    dsimp only at hx
    unfold cosineSimilarity at hx
    by_cases hz : sqNormV (generateEmbedding q) = 0 ∨ sqNormV e = 0
    · rw [if_pos hz] at hx
      exact absurd hx (by simp)
    · rw [if_neg hz] at hx
      push_neg at hz
      have hxe := (Option.some.inj hx).symm
      subst hxe
      exact Nat.pos_of_ne_zero (mul_ne_zero hz.1 hz.2)

theorem insertScored_pairwise (a : Scored) (l : List Scored)
    (ha : ∃ x, a.simSq = some x)
    (hl : ∀ b ∈ l, ∃ y, b.simSq = some y)
    (hpos : ∀ b ∈ l, ∀ y, b.simSq = some y → 0 < y.2)
    (hidx : ∀ b ∈ l, a.idx < b.idx)
    (hp : l.Pairwise scoredRank) :
    (insertScored a l).Pairwise scoredRank := by
  obtain ⟨x, hx⟩ := ha
  induction l with
  | nil => simp [insertScored]
  | cons b t ih =>
    obtain ⟨y, hy⟩ := hl b (List.mem_cons_self b t)
    rw [List.pairwise_cons] at hp
    obtain ⟨hbt, hpt⟩ := hp
    unfold insertScored
    have hkb : keepBefore a b = simLe y x := by
      unfold keepBefore
      rw [hx, hy]
    rw [hkb]
    by_cases hc : simLe y x = true
    · rw [if_pos hc]
      unfold simLe at hc
      rw [decide_eq_true_eq] at hc
      rw [List.pairwise_cons]
      refine ⟨?_, List.Pairwise.cons hbt hpt⟩
      intro z hz
      rcases List.mem_cons.mp hz with rfl | hzt
      · refine ⟨x, y, hx, hy, ?_⟩
        rcases lt_or_eq_of_le hc with h | h
        · exact Or.inl h
        · exact Or.inr ⟨h.symm, hidx z (List.mem_cons_self z t)⟩
      · obtain ⟨y', z', hy', hz', hor⟩ := hbt z hzt
        rw [hy] at hy'
        have hyy := Option.some.inj hy'
        subst hyy
        refine ⟨x, z', hx, hz', ?_⟩
        have hypos : 0 < y.2 := hpos b (List.mem_cons_self b t) y hy
        have hzy : z'.1 * y.2 ≤ y.1 * z'.2 := by
          rcases hor with h | h
          · exact le_of_lt h
          · exact le_of_eq h.1.symm
        have hle : z'.1 * x.2 ≤ x.1 * z'.2 := frac_le_trans hypos hc hzy
        rcases lt_or_eq_of_le hle with h | h
        · exact Or.inl h
        · exact Or.inr ⟨h.symm, hidx z (List.mem_cons_of_mem b hzt)⟩
    · rw [if_neg hc]
      unfold simLe at hc
      rw [decide_eq_true_eq] at hc
      rw [List.pairwise_cons]
      constructor
      · intro z hz
        rcases (mem_insertScored a z t).mp hz with rfl | hzt
        · exact ⟨y, x, hy, hx, Or.inl (Nat.not_le.mp hc)⟩
        · exact hbt z hzt
      · exact ih (fun c hc2 => hl c (List.mem_cons_of_mem b hc2))
          (fun c hc2 => hpos c (List.mem_cons_of_mem b hc2))
          (fun c hc2 => hidx c (List.mem_cons_of_mem b hc2)) hpt

theorem sortScored_pairwise (l : List Scored)
    (hl : ∀ b ∈ l, ∃ y, b.simSq = some y)
    (hpos : ∀ b ∈ l, ∀ y, b.simSq = some y → 0 < y.2)
    (hidx : l.Pairwise (fun a b => a.idx < b.idx)) :
    (sortScored l).Pairwise scoredRank := by
  induction l with
  | nil => simp [sortScored]
  | cons a t ih =>
    rw [List.pairwise_cons] at hidx
    unfold sortScored
    apply insertScored_pairwise
    · exact hl a (List.mem_cons_self a t)
    · intro b hb
      exact hl b (List.mem_cons_of_mem a ((mem_sortScored b t).mp hb))
    · intro b hb y hy
      exact hpos b (List.mem_cons_of_mem a ((mem_sortScored b t).mp hb)) y hy
    · intro b hb
      exact hidx.1 b ((mem_sortScored b t).mp hb)
    · exact ih (fun b hb => hl b (List.mem_cons_of_mem a hb))
        (fun b hb => hpos b (List.mem_cons_of_mem a hb)) hidx.2

/-- C8 (amended): searchSimilar always returns at most limit results and
on an empty index returns the empty list for any query, unconditionally;
and provided every scored similarity is defined (no all-zero fingerprint
is involved), the returned prefix is strictly ranked: descending
similarity with ties in insertion order.  (With an undefined NaN
similarity present the comparator is coerced to equal and the output
need not be sorted.) -/
theorem searchSimilar_sorted_bounded (store : VectorStore) (q : String) (k : Nat) :
    (searchSimilar store q k).length ≤ k ∧
    (store.rules = [] → searchSimilar store q k = []) ∧
    ((∀ s ∈ scoreRules store q, s.simSq ≠ none) →
      ((sortScored (scoreRules store q)).take k).Pairwise scoredRank) := by
  refine ⟨?_, ?_, ?_⟩
  · unfold searchSimilar
    rw [List.length_map, List.length_take]
    exact min_le_left _ _
  · intro hrules
    unfold searchSimilar scoreRules
    rw [hrules]
    simp [sortScored]
  · intro hdef
    refine List.Pairwise.sublist (List.take_sublist _ _) ?_
    apply sortScored_pairwise
    · intro b hb
      cases hsb : b.simSq with
      | none => exact absurd hsb (hdef b hb)
      | some y => exact ⟨y, rfl⟩
    · exact scoreRules_den_pos store q
    · exact scoreRules_pairwise_idx store q

/-- C8 (counterexample): with a rule of empty content indexed before a
normal rule, the empty rule scores NaN against the query, the coerced
comparator keeps it in front, and the returned sequence is not sorted by
non-increasing similarity (the NaN head ranks below the defined tail
under any numeric reading). -/
theorem searchSimilar_nan_unsorted_cex :
    ((sortScored (scoreRules storeWithEmpty "meeting")).take 5).map (fun s => s.simSq)
      = [none, some (1, 1)] ∧
    ¬ ((sortScored (scoreRules storeWithEmpty "meeting")).take 5).Pairwise scoredRank := by
  constructor
  · decide
  · intro hp
    have hm : ((sortScored (scoreRules storeWithEmpty "meeting")).take 5).map
        (fun s => s.simSq) = [none, some (1, 1)] := by decide
    rcases hE : (sortScored (scoreRules storeWithEmpty "meeting")).take 5 with
      - | ⟨a, - | ⟨b, t⟩⟩
    · rw [hE] at hm
      simp at hm
    · rw [hE] at hm
      simp at hm
    · rw [hE] at hm hp
      simp only [List.map_cons, List.cons.injEq] at hm
      rw [List.pairwise_cons] at hp
      obtain ⟨hz, -⟩ := hp
      obtain ⟨u, v, hu, -, -⟩ := hz b (List.mem_cons_self b t)
      rw [hm.1] at hu
      exact Option.noConfusion hu

/-- C8 (witness): the unconditional parts applied at a concrete store,
and the definedness antecedent discharged there: two rules with
non-empty contents and a non-empty query give only defined similarities,
so the ranking conclusion holds as well. -/
theorem searchSimilar_sorted_bounded_witness :
    (∀ s ∈ scoreRules storeTwo "meeting", s.simSq ≠ none) ∧
    ((searchSimilar storeTwo "meeting" 5).length ≤ 5 ∧
     (storeTwo.rules = [] → searchSimilar storeTwo "meeting" 5 = []) ∧
     ((sortScored (scoreRules storeTwo "meeting")).take 5).Pairwise scoredRank) :=
  ⟨by decide,
   (searchSimilar_sorted_bounded storeTwo "meeting" 5).1,
   (searchSimilar_sorted_bounded storeTwo "meeting" 5).2.1,
   (searchSimilar_sorted_bounded storeTwo "meeting" 5).2.2 (by decide)⟩

theorem mem_ite_singleton {α : Type} {c : Prop} [Decidable c] {x y : α}
    (h : y ∈ if c then [x] else ([] : List α)) : y = x := by
  split at h
  · simpa using h
  · simp at h

theorem mem_triple_ite {α : Type} {c1 c2 c3 : Prop} [Decidable c1] [Decidable c2]
    [Decidable c3] {x1 x2 x3 y : α}
    (h : y ∈ (if c1 then [x1] else []) ++ (if c2 then [x2] else [])
      ++ (if c3 then [x3] else [])) :
    y = x1 ∨ y = x2 ∨ y = x3 := by
  rcases List.mem_append.mp h with h12 | h3
  · rcases List.mem_append.mp h12 with h1 | h2
    · exact Or.inl (mem_ite_singleton h1)
    · exact Or.inr (Or.inl (mem_ite_singleton h2))
  · exact Or.inr (Or.inr (mem_ite_singleton h3))

/-- A property preserved by both overrides, holding of the drafted items
and of the default item, holds of everything the draft-override-default
shape of extractActionItems produces. -/
theorem shape_all {P : ActionItem → Prop} (base : List ActionItem) (cu cd : Bool)
    (fu fd : ActionItem → ActionItem) (dflt : ActionItem)
    (hbase : ∀ y ∈ base, P y)
    (hfu : ∀ y, P (fu y))
    (hfd : ∀ y, P (fd y))
    (hd : P dflt) :
    ∀ it ∈ (if (if cd then (if cu then base.map fu else base).map fd
                 else (if cu then base.map fu else base)).isEmpty
            then [dflt]
            else (if cd then (if cu then base.map fu else base).map fd
                  else (if cu then base.map fu else base))),
      P it := by
  have hau : ∀ it ∈ (if cu then base.map fu else base), P it := by
    intro it hit
    cases cu with
    | false =>
      simp only [Bool.false_eq_true, if_false] at hit
      exact hbase it hit
    | true =>
      simp only [if_true] at hit
      obtain ⟨a, -, rfl⟩ := List.mem_map.mp hit
      exact hfu a
  have had : ∀ it ∈ (if cd then (if cu then base.map fu else base).map fd
      else (if cu then base.map fu else base)), P it := by
    intro it hit
    cases cd with
    | false =>
      simp only [Bool.false_eq_true, if_false] at hit
      exact hau it hit
    | true =>
      simp only [if_true] at hit
      obtain ⟨a, -, rfl⟩ := List.mem_map.mp hit
      exact hfd a
  intro it hit
  by_cases he : (if cd then (if cu then base.map fu else base).map fd
      else (if cu then base.map fu else base)).isEmpty = true
  · rw [if_pos he] at hit
    simp only [List.mem_singleton] at hit
    subst hit
    exact hd
  · rw [if_neg he] at hit
    exact had it hit

/-- Every action item produced by extractActionItems carries a due date:
each drafting branch, each override and the zero-item default all assign
one. -/
theorem extractActionItems_dueDate (response input : String) (clock : Clock) :
    ∀ it ∈ extractActionItems response input clock, it.dueDate.isSome := by
  intro it hit
  refine @shape_all (fun a => a.dueDate.isSome = true) _ _ _ _ _ _ ?_ ?_ ?_ ?_ it hit
  · intro y hy
    rcases mem_triple_ite hy with rfl | rfl | rfl <;> rfl
  · intro y
    rfl
  · intro y
    rfl
  · rfl

/-- Scheduling one reminder appends exactly one entry with the task id
to the reminder list, whatever the timer branch taken. -/
theorem scheduleReminder_taskIds (st : ReminderState) (clock : Clock)
    (task : TaskItem) (time : ℚ) (ty : ReminderType) :
    (scheduleReminder st clock task time ty).reminders.map (fun r => r.taskId)
      = st.reminders.map (fun r => r.taskId) ++ [task.id] := by
  unfold scheduleReminder scheduleNotification
  by_cases h1 : (0 : ℚ) < time - clock.now
  · simp [h1]
  · by_cases h2 : (-300000 : ℚ) < time - clock.now
    · simp [h1, h2, sendReminder_taskIds]
    · simp [h1, h2]

/-- When the task has a due date, one scheduling step records the
reminder time on the task and schedules one deadline reminder. -/
theorem scheduleStep_some (clock : Clock) (acc : List TaskItem × ReminderState)
    (t : TaskItem) (d : ℚ) (hd : t.dueDate = some d) :
    scheduleStep clock acc t =
      (acc.1 ++ [withRT clock t],
       scheduleReminder acc.2 clock (withRT clock t)
         (calculateReminderTime clock.now t.dueDate t.priority)
         ReminderType.deadline) := by
  simp only [scheduleStep, withRT, hd]

/-- The scheduling fold over tasks that all carry due dates: the task
list comes back with reminder times recorded, and the reminder list
grows by exactly the task ids, in order. -/
theorem foldl_scheduleStep (clock : Clock) (ts : List TaskItem) :
    ∀ acc : List TaskItem × ReminderState, (∀ t ∈ ts, t.dueDate.isSome) →
    (ts.foldl (scheduleStep clock) acc).1 = acc.1 ++ ts.map (withRT clock) ∧
    (ts.foldl (scheduleStep clock) acc).2.reminders.map (fun r => r.taskId)
      = acc.2.reminders.map (fun r => r.taskId) ++ ts.map (fun t => t.id) := by
  induction ts with
  | nil =>
    intro acc _
    simp
  | cons t ts ih =>
    intro acc hdue
    obtain ⟨d, hd⟩ := Option.isSome_iff_exists.mp (hdue t (List.mem_cons_self t ts))
    rw [List.foldl_cons, scheduleStep_some clock acc t d hd]
    obtain ⟨ih1, ih2⟩ := ih _ (fun u hu => hdue u (List.mem_cons_of_mem t hu))
    constructor
    · rw [ih1]
      simp [List.map_cons, List.append_assoc]
    · rw [ih2]
      dsimp only
      rw [scheduleReminder_taskIds]
      simp [List.map_cons, List.append_assoc, withRT]

theorem enumFrom_snd_mem {α : Type} (n : Nat) (l : List α) :
    ∀ p ∈ List.enumFrom n l, p.2 ∈ l := by
  induction l generalizing n with
  | nil =>
    intro p hp
    simp [List.enumFrom] at hp
  | cons a t ih =>
    intro p hp
    rcases List.mem_cons.mp hp with rfl | hp
    · exact List.mem_cons_self a t
    · exact List.mem_cons_of_mem a (ih (n + 1) p hp)

/-- C10: every task returned by generateTaskRecommendations carries a
due date, has its reminderTime field set, and has had exactly one
reminder scheduled for it during the call: the number of scheduled
reminders bearing its task id is one more than before the call.  The id
supply is assumed injective, as the collision-free random UUIDs it
models are. -/
theorem generateTaskRecommendations_invariants (gen : Nat → Nat)
    (store : VectorStore) (rst : ReminderState) (clock : Clock) (input : String)
    (hinj : Function.Injective gen) :
    ∀ t ∈ (generateTaskRecommendations gen store rst clock input).1,
      t.dueDate.isSome ∧ t.reminderTime.isSome ∧
      ((generateTaskRecommendations gen store rst clock input).2.reminders.map
          (fun r => r.taskId)).count t.id
        = (rst.reminders.map (fun r => r.taskId)).count t.id + 1 := by
  intro t ht
  simp only [generateTaskRecommendations] at ht ⊢
  set resp := processUserInput store input with hresp
  set items := extractActionItems resp.response input clock with hitems
  set ts0 := items.enum.map (buildTask gen resp clock) with hts0
  have hdue0 : ∀ u ∈ ts0, u.dueDate.isSome := by
    intro u hu
    rw [hts0, List.mem_map] at hu
    obtain ⟨p, hp, rfl⟩ := hu
    show p.2.dueDate.isSome
    exact extractActionItems_dueDate resp.response input clock p.2
      (enumFrom_snd_mem 0 items p hp)
  obtain ⟨h1, h2⟩ := foldl_scheduleStep clock ts0 ([], rst) hdue0
  rw [h1] at ht
  rw [List.nil_append] at ht
  obtain ⟨u, hu, rfl⟩ := List.mem_map.mp ht
  refine ⟨hdue0 u hu, rfl, ?_⟩
  rw [h2, List.count_append]
  have hids : ts0.map (fun x => x.id) = (items.enum.map Prod.fst).map gen := by
    rw [hts0, List.map_map, List.map_map]
    rfl
  obtain ⟨p, hp, rfl⟩ := List.mem_map.mp hu
  have hpfst : p.1 ∈ List.range items.length := by
    rw [← List.enum_map_fst items]
    exact List.mem_map_of_mem Prod.fst hp
  show _ + (ts0.map (fun x => x.id)).count (buildTask gen resp clock p).id = _ + 1
  rw [hids, List.enum_map_fst]
  show _ + ((List.range items.length).map gen).count (gen p.1) = _ + 1
  rw [List.count_map_of_injective _ gen hinj,
    List.count_eq_one_of_mem (List.nodup_range items.length) hpfst]

/-- C10 (witness): the identity id supply is injective, the theorem
applies on a concrete input, and that input indeed produces one task. -/
theorem generateTaskRecommendations_invariants_witness :
    Function.Injective (fun n : Nat => n) ∧
    ((generateTaskRecommendations (fun n => n) { rules := [] } {} ⟨0, 0⟩
        "write report").1.length = 1) ∧
    (∀ t ∈ (generateTaskRecommendations (fun n => n) { rules := [] } {} ⟨0, 0⟩
        "write report").1,
      t.dueDate.isSome ∧ t.reminderTime.isSome ∧
      ((generateTaskRecommendations (fun n => n) { rules := [] } {} ⟨0, 0⟩
          "write report").2.reminders.map (fun r => r.taskId)).count t.id
        = (({} : ReminderState).reminders.map (fun r => r.taskId)).count t.id + 1) :=
  ⟨fun a b h => h, by decide,
   generateTaskRecommendations_invariants (fun n => n) { rules := [] } {} ⟨0, 0⟩
     "write report" (fun a b h => h)⟩

/-- The extraction step on the no-rules fallback response and the
counterexample input: no action verb matches the fallback response, so
the zero-item default fires, keeping the extracted 18:00 due date. -/
theorem extractActionItems_urgent_default :
    extractActionItems noRulesMessage "urgent deadline for project due today" ⟨0, 0⟩
      = [⟨"Handle: " ++ "urgent deadline for project due today",
          TaskPriority.high, some 64800000⟩] := by
  have hdd : extractDueDate ⟨0, 0⟩ "urgent deadline for project due today"
      = some 64800000 := by
    unfold extractDueDate
    rw [if_pos (by decide)]
    norm_num
  have hprio : calculateDefaultPriority "urgent deadline for project due today"
      (some 64800000) ⟨0, 0⟩ = TaskPriority.high := by
    unfold calculateDefaultPriority
    have hc : (match (some (64800000 : ℚ)) with
        | some d => decide (d - (⟨0, 0⟩ : Clock).now ≤ 86400000)
        | none => false) = true := by
      show decide ((64800000 : ℚ) - 0 ≤ 86400000) = true
      rw [decide_eq_true_eq]
      norm_num
    rw [if_pos hc]
  have c1 : containsAnyCI noRulesMessage [("reschedule"), ("change time")] = false := by
    decide
  have c2 : containsAnyCI noRulesMessage [("cancel"), ("skip")] = false := by decide
  have c3 : containsAnyCI noRulesMessage [("check"), ("verify")] = false := by decide
  have c4 : containsAnyCI "urgent deadline for project due today"
      [("urgent"), ("emergency"), ("asap"), ("critical"), ("immediately")] = true := by
    decide
  have c6 : isUrgentTimeframe "urgent deadline for project due today" = true := by decide
  simp only [extractActionItems, hdd]
  simp [c1, c2, c3, c4, c6, hprio]

/-- C6 (counterexample): on the input of the claim with an empty rule
corpus, the produced task keeps the extracted due date (18:00 of the
current day, 64800000 ms past midnight), not now + 30 minutes: the
urgent-vocabulary override runs before the zero-item default is
synthesized and never reaches it. -/
theorem urgent_default_item_cex :
    ((generateTaskRecommendations (fun n => n) { rules := [] } {} ⟨0, 0⟩
        "urgent deadline for project due today").1.map (fun t => t.dueDate))
      = [some 64800000] ∧
    (64800000 : ℚ) ≠ 0 + 1800000 := by
  constructor
  · have hresp : processUserInput { rules := [] }
        "urgent deadline for project due today"
        = ⟨noRulesMessage, [], []⟩ := by decide
    simp only [generateTaskRecommendations, hresp, extractActionItems_urgent_default]
    simp [List.enum, List.enumFrom, scheduleStep, withRT, buildTask]
  · norm_num

/-- The middle section of extractActionItems once the urgent override is
known to fire: items drafted from the response all get the override
values, the due-soon override preserves them, and with a non-empty draft
the default branch is dead. -/
theorem shape_override {P : ActionItem → Prop} (base : List ActionItem) (cd : Bool)
    (fu fd : ActionItem → ActionItem) (dflt : ActionItem)
    (hfu : ∀ y, P (fu y))
    (hfd : ∀ y, P y → P (fd y))
    (hne : base ≠ []) :
    ∀ it ∈ (if (if cd then (base.map fu).map fd else base.map fu).isEmpty
            then [dflt]
            else (if cd then (base.map fu).map fd else base.map fu)),
      P it := by
  have had : ∀ it ∈ (if cd then (base.map fu).map fd else base.map fu), P it := by
    intro it hit
    cases cd with
    | false =>
      simp only [Bool.false_eq_true, if_false] at hit
      obtain ⟨a, -, rfl⟩ := List.mem_map.mp hit
      exact hfu a
    | true =>
      simp only [if_true] at hit
      obtain ⟨a, ha, rfl⟩ := List.mem_map.mp hit
      obtain ⟨b, -, rfl⟩ := List.mem_map.mp ha
      exact hfd _ (hfu b)
  intro it hit
  by_cases he : (if cd then (base.map fu).map fd else base.map fu).isEmpty = true
  · exfalso
    apply hne
    cases cd with
    | false =>
      simp only [Bool.false_eq_true, if_false, List.isEmpty_iff, List.map_eq_nil_iff] at he
      exact he
    | true =>
      simp only [if_true, List.isEmpty_iff, List.map_eq_nil_iff] at he
      exact he
  · rw [if_neg he] at hit
    exact had it hit

/-- C6 (amended): when the input carries urgent vocabulary and the
drafted response matches at least one action verb (so extraction drafts
at least one item before the overrides run), every task produced by
generateTaskRecommendations has priority high and due date now + 30
minutes, regardless of the rule corpus and of earlier due-date
extraction.  A zero-item default task, created after the override, is
not covered (see the counterexample). -/
theorem urgent_override_forces_thirty_minutes (gen : Nat → Nat)
    (store : VectorStore) (rst : ReminderState) (clock : Clock) (input : String)
    (hverb : containsAnyCI (processUserInput store input).response
        [("reschedule"), ("change time")] = true ∨
      containsAnyCI (processUserInput store input).response
        [("cancel"), ("skip")] = true ∨
      containsAnyCI (processUserInput store input).response
        [("check"), ("verify")] = true)
    (hurg : containsAnyCI input
        [("urgent"), ("emergency"), ("asap"), ("critical"), ("immediately")] = true) :
    ∀ t ∈ (generateTaskRecommendations gen store rst clock input).1,
      t.priority = TaskPriority.high ∧ t.dueDate = some (clock.now + 1800000) := by
  intro t ht
  simp only [generateTaskRecommendations] at ht
  set resp := processUserInput store input with hresp
  set items := extractActionItems resp.response input clock with hitems
  have hprop : ∀ it ∈ items,
      it.priority = TaskPriority.high ∧ it.dueDate = some (clock.now + 1800000) := by
    rw [hitems]
    intro it hit
    simp only [extractActionItems] at hit
    rw [if_pos hurg] at hit
    refine @shape_override
      (fun a => a.priority = TaskPriority.high ∧ a.dueDate = some (clock.now + 1800000))
      _ _ _ _ _ (fun y => ⟨rfl, rfl⟩) ?_ ?_ it hit
    · intro y hy
      refine ⟨rfl, ?_⟩
      show some (y.dueDate.getD _) = _
      rw [hy.2]
      rfl
    · intro hnil
      rcases hverb with h | h | h
      · rw [if_pos h] at hnil
        simp at hnil
      · rw [if_pos h] at hnil
        simp at hnil
      · rw [if_pos h] at hnil
        simp at hnil
  have hdue0 : ∀ u ∈ items.enum.map (buildTask gen resp clock), u.dueDate.isSome := by
    intro u hu
    obtain ⟨p, hp, rfl⟩ := List.mem_map.mp hu
    show p.2.dueDate.isSome
    rw [(hprop p.2 (enumFrom_snd_mem 0 items p hp)).2]
    rfl
  obtain ⟨h1, -⟩ := foldl_scheduleStep clock (items.enum.map (buildTask gen resp clock))
    ([], rst) hdue0
  rw [h1, List.nil_append] at ht
  obtain ⟨u, hu, rfl⟩ := List.mem_map.mp ht
  obtain ⟨p, hp, rfl⟩ := List.mem_map.mp hu
  have hpitem := hprop p.2 (enumFrom_snd_mem 0 items p hp)
  exact ⟨hpitem.1, hpitem.2⟩

/-- C6 (witness): a store holding one rule whose content makes the basic
response mention an action verb, with an urgent input; every produced
task (there is one) gets priority high and due date now + 30 minutes. -/
theorem urgent_override_forces_thirty_minutes_witness :
    (containsAnyCI (processUserInput storeCheck "urgent emergency please").response
        [("check"), ("verify")] = true) ∧
    (containsAnyCI "urgent emergency please"
        [("urgent"), ("emergency"), ("asap"), ("critical"), ("immediately")] = true) ∧
    ((generateTaskRecommendations (fun n => n) storeCheck {} ⟨0, 0⟩
        "urgent emergency please").1.length = 1) ∧
    (∀ t ∈ (generateTaskRecommendations (fun n => n) storeCheck {} ⟨0, 0⟩
        "urgent emergency please").1,
      t.priority = TaskPriority.high ∧
      t.dueDate = some ((⟨0, 0⟩ : Clock).now + 1800000)) :=
  ⟨by decide, by decide, by decide,
   urgent_override_forces_thirty_minutes (fun n => n) storeCheck {} ⟨0, 0⟩
     "urgent emergency please" (Or.inr (Or.inr (by decide))) (by decide)⟩
